import Mathlib

/-!
Shallow embedding of `src/FindingHealthyFooodML.py` — a linear pandas
pipeline over a fast-food nutrition table: mean imputation, nutrient
density derivation, health scoring, min-max normalization, rule-based
classification, clustering columns, PCA columns, rounding and a sorted
report.  Numeric cells are modelled by `ℚ` (exact rational arithmetic in
place of IEEE floats); the one place where float semantics matters
(division by zero during normalization, and the sample standard
deviation inside `describe`) is modelled explicitly with `Option` and
`ℝ`.
-/

namespace HealthyFood

/-- The seven tracked nutrients, the keys of the
`recommended_density_per_1000cal` dict (lines 47-55 of the source). -/
inductive Nutrient where
  | total_fat
  | sat_fat
  | sodium
  | fiber
  | sugar
  | protein
  | calcium
deriving DecidableEq, Fintype, Repr

/-- Dict insertion order of `recommended_density_per_1000cal`. -/
def nutrients : List Nutrient :=
  [.total_fat, .sat_fat, .sodium, .fiber, .sugar, .protein, .calcium]

/-- Recommended densities per 1000 kcal (lines 47-55). -/
def recommended_density_per_1000cal : Nutrient → ℚ
  | .total_fat => 42.66
  | .sat_fat   => 14.52
  | .sodium    => 1747.65
  | .fiber     => 5.95
  | .sugar     => 5.69
  | .protein   => 70.30
  | .calcium   => 459.51

/-- A row of the table at the point where the row-wise functions
`compute_health_score` and `classify_health` are applied: the item name,
the calorie count, the raw nutrient columns, the derived
`<nutrient>_per_1000cal` density columns and the raw health score. -/
structure Row where
  item : String
  calories : ℚ
  raw : Nutrient → ℚ
  dens : Nutrient → ℚ
  health_score : ℚ

/-- Health scoring function (lines 63-68): sum over the seven nutrients
of `1 / (abs (actual - rec_value) + 1)`. -/
def compute_health_score (row : Row) : ℚ :=
  nutrients.foldl
    (fun score nutrient =>
      score + 1 / (|row.dens nutrient - recommended_density_per_1000cal nutrient| + 1))
    0

/-- One summand of `compute_health_score`. -/
def healthTerm (actual rec_value : ℚ) : ℚ :=
  1 / (|actual - rec_value| + 1)

/-- The three labels produced by `classify_health`. -/
inductive HealthLabel where
  | Healthy
  | Moderate
  | Unhealthy
deriving DecidableEq, Repr

/-- Rule-based labeling (lines 77-90): thresholds on sodium and
total-fat density; the sugar density is bound but never used. -/
def classify_health (row : Row) : HealthLabel :=
  let sodium := row.dens .sodium
  let fat := row.dens .total_fat
  let sugar := row.dens .sugar
  let sodium_limit := recommended_density_per_1000cal .sodium
  let fat_limit := recommended_density_per_1000cal .total_fat
  let sugar_limit := recommended_density_per_1000cal .sugar
  if sodium ≤ sodium_limit ∧ fat ≤ fat_limit then .Healthy
  else if (sodium > sodium_limit ∧ fat ≤ fat_limit) ∨
          (fat > fat_limit ∧ sodium ≤ sodium_limit) then .Moderate
  else .Unhealthy

/-- Update one density column of a row, leaving everything else fixed. -/
def setDens (row : Row) (n : Nutrient) (a : ℚ) : Row :=
  { row with dens := fun m => if m = n then a else row.dens m }

/-- Minimum of a column, as the pandas `Series.min` of line 72: the
running minimum over the values (0 only for the empty column). -/
def minScore : List ℚ → ℚ
  | [] => 0
  | x :: xs => xs.foldl min x

/-- Maximum of a column, as the pandas `Series.max` of line 73. -/
def maxScore : List ℚ → ℚ
  | [] => 0
  | x :: xs => xs.foldl max x

/-- Min-max normalization of line 74:
`(score - min_score) / (max_score - min_score)`. -/
def normalizedScore (scores : List ℚ) (s : ℚ) : ℚ :=
  (s - minScore scores) / (maxScore scores - minScore scores)

/-- Float-faithful normalization: when the score range is zero, line 74
divides zero by zero, which has no defined rational value (IEEE NaN in
the source), so the result is `none`. -/
def normalizedScoreF (scores : List ℚ) (s : ℚ) : Option ℚ :=
  if maxScore scores - minScore scores = 0 then none
  else some ((s - minScore scores) / (maxScore scores - minScore scores))

/-- Arithmetic mean of the non-null values of a column: the imputation
value the spec (and the comment on line 32) prescribes. -/
def colMean (xs : List ℚ) : ℚ := xs.sum / xs.length

/-- Linear-interpolation quantile of a sorted list, as numpy/pandas
compute the `25%`, `50%`, `75%` rows of `describe()`. -/
def quantile (sorted : List ℚ) (q : ℚ) : ℚ :=
  let pos : ℚ := q * ((sorted.length : ℚ) - 1)
  let i : ℕ := ⌊pos⌋.toNat
  let lo := sorted.getD i 0
  let hi := sorted.getD (i + 1) lo
  lo + (pos - ⌊pos⌋) * (hi - lo)

/-- Sample variance with ddof = 1, the square of the `std` row of
`describe()`. -/
def sampleVar (xs : List ℚ) : ℚ :=
  (xs.map (fun x => (x - xs.sum / xs.length) ^ 2)).sum / ((xs.length : ℚ) - 1)

/-- The seven rational rows of `Series.describe()` on the non-null
values of a numeric column — count, mean, min, 25%, 50%, 75%, max — in
describe order with the (irrational) `std` row left out. -/
def describeStatsQ (xs : List ℚ) : List ℚ :=
  let sorted := xs.insertionSort (· ≤ ·)
  [(xs.length : ℚ),
   xs.sum / xs.length,
   sorted.headD 0,
   quantile sorted (1/4),
   quantile sorted (1/2),
   quantile sorted (3/4),
   sorted.getLastD 0]

/-- Characterization of the `std` row of `describe()`: the nonnegative
square root of the sample variance (irrational in general, so it is
specified relationally over `ℝ` rather than computed). -/
def isSampleStd (xs : List ℚ) (s : ℝ) : Prop :=
  0 ≤ s ∧ s ^ 2 = (sampleVar xs : ℝ)

/-- Characterization of the imputation value the code computes on line
36, `food_data[col].describe().mean()`: eight times that value is the
sum of the eight describe rows (count, mean, std, min, 25%, 50%, 75%,
max). -/
def isDescribeMean (xs : List ℚ) (m : ℝ) : Prop :=
  ∃ std : ℝ, isSampleStd xs std ∧ m * 8 = ((describeStatsQ xs).sum : ℝ) + std

/-- Line 43, `fillna`: replace every null entry of a column by the given
value. -/
def fillna (v : ℚ) (col : List (Option ℚ)) : List ℚ :=
  col.map (fun cell => cell.getD v)

/-- The non-null entries of a column, as pandas aggregations skip NaN. -/
def nonNull (col : List (Option ℚ)) : List ℚ :=
  col.filterMap id

/-- A cell of the in-memory table: a numeric value, a text value, a
health label, or a missing value (NaN). -/
inductive Cell where
  | num : ℚ → Cell
  | str : String → Cell
  | label : HealthLabel → Cell
  | null : Cell
deriving DecidableEq, Repr

/-- A column is the list of its cells, one per row. -/
abbrev Col := List Cell

/-- The DataFrame, as the ordered association of column names to
columns. -/
abbrev Table := List (String × Col)

/-- Column lookup, `df[c]`. -/
def getCol : Table → String → Option Col
  | [], _ => none
  | p :: t, c => if p.1 = c then some p.2 else getCol t c

/-- Column lookup defaulting to the empty column. -/
def getColD (t : Table) (c : String) : Col := (getCol t c).getD []

/-- Column assignment, `df[c] = v`: overwrite the column if it exists,
otherwise append it on the right. -/
def setCol : Table → String → Col → Table
  | [], c, v => [(c, v)]
  | p :: t, c, v => if p.1 = c then (c, v) :: t else p :: setCol t c v

/-- Numeric content of a cell, `none` on non-numeric cells. -/
def Cell.toQ : Cell → Option ℚ
  | .num q => some q
  | _ => none

/-- Numeric content of a cell, defaulting to 0. -/
def cellQ (cell : Cell) : ℚ := cell.toQ.getD 0

/-- Numeric values of a column, skipping non-numeric cells the way
pandas aggregations skip NaN. -/
def qCells (col : Col) : List ℚ := col.filterMap Cell.toQ

/-- Number of rows, read off the `calories` column. -/
def tableLen (t : Table) : ℕ := (getColD t "calories").length

/-- Cell at row `i` of column `c`. -/
def getCell (t : Table) (c : String) (i : ℕ) : Cell := (getColD t c).getD i .null

/-- Raw column name of a nutrient. -/
def rawName : Nutrient → String
  | .total_fat => "total_fat"
  | .sat_fat   => "sat_fat"
  | .sodium    => "sodium"
  | .fiber     => "fiber"
  | .sugar     => "sugar"
  | .protein   => "protein"
  | .calcium   => "calcium"

/-- Derived density column name, `f"{nutrient}_per_1000cal"` of line
59. -/
def densName (n : Nutrient) : String := rawName n ++ "_per_1000cal"

/-- Row `i` of the table, packaged for the row-wise `apply` functions. -/
def rowAt (t : Table) (i : ℕ) : Row :=
  { item := match getCell t "item" i with | .str s => s | _ => ""
    calories := cellQ (getCell t "calories" i)
    raw := fun n => cellQ (getCell t (rawName n) i)
    dens := fun n => cellQ (getCell t (densName n) i)
    health_score := cellQ (getCell t "health_score" i) }

/-- One density cell, `raw / calories * 1000` (line 60); null operands
propagate as null. -/
def densEntry : Cell → Cell → Cell
  | .num a, .num c => .num (a / c * 1000)
  | _, _ => .null

/-- A whole density column, `food_data[nutrient] / food_data['calories']
* 1000`. -/
def densCol (t : Table) (n : Nutrient) : Col :=
  List.zipWith densEntry (getColD t (rawName n)) (getColD t "calories")

/-- Lines 57-60: derive the seven `<nutrient>_per_1000cal` columns in
dict order. -/
def densStage (t : Table) : Table :=
  nutrients.foldl (fun s n => setCol s (densName n) (densCol s n)) t

/-- Line 70: `food_data['health_score'] =
food_data.apply(compute_health_score, axis=1)`. -/
def scoreStage (t : Table) : Table :=
  setCol t "health_score"
    ((List.range (tableLen t)).map (fun i => .num (compute_health_score (rowAt t i))))

/-- Lines 72-74: dataset-wide min-max normalization into the
`Health Score` column. -/
def normStage (t : Table) : Table :=
  let scores := qCells (getColD t "health_score")
  setCol t "Health Score"
    ((getColD t "health_score").map (fun cell =>
      match cell with
      | .num q => .num (normalizedScore scores q)
      | _ => .null))

/-- Line 92: `food_data['health_label'] =
food_data.apply(classify_health, axis=1)`. -/
def labelStage (t : Table) : Table :=
  setCol t "health_label"
    ((List.range (tableLen t)).map (fun i => .label (classify_health (rowAt t i))))

/-- Line 102: the `kmeans_cluster` column; its values come from the
scikit-learn library call, so they enter the model as a parameter. -/
def kmeansStage (clusters : Col) (t : Table) : Table := setCol t "kmeans_cluster" clusters

/-- Line 108: the `dbscan_cluster` column, values again from the
library call. -/
def dbscanStage (clusters : Col) (t : Table) : Table := setCol t "dbscan_cluster" clusters

/-- Lines 115-116: the `pca1` and `pca2` columns, values from the
fitted PCA. -/
def pcaStage (pc1 pc2 : Col) (t : Table) : Table :=
  setCol (setCol t "pca1" pc1) "pca2" pc2

/-- Line 40: drop the `salad`, `cal_fat` and `trans_fat` columns. -/
def dropStage (t : Table) : Table :=
  t.filter (fun p => !(p.1 == "salad" || p.1 == "cal_fat" || p.1 == "trans_fat"))

/-- Lines 57-116: every pipeline stage after the early column drop, in
program order. -/
def pipelineAfterDrop (kcol dcol pc1 pc2 : Col) (t : Table) : Table :=
  pcaStage pc1 pc2
    (dbscanStage dcol
      (kmeansStage kcol
        (labelStage
          (normStage
            (scoreStage
              (densStage t))))))

/-- The seven derived density column names. -/
def densNames : List String := nutrients.map densName

/-- Columns written by the stages that follow the density derivation. -/
def laterNames : List String :=
  ["health_score", "Health Score", "health_label", "kmeans_cluster",
   "dbscan_cluster", "pca1", "pca2"]

/-- Every column name written by some stage after the drop. -/
def writtenNames : List String := densNames ++ laterNames

/-- Raw columns the program reads after the drop (the item name, the
calorie count and the nutrient columns, imputed or not). -/
def rawNames : List String :=
  ["item", "calories", "total_fat", "sat_fat", "sodium", "fiber",
   "sugar", "protein", "calcium", "vit_a", "vit_c"]

/-- Round half to even, as `numpy.round` does on exact ties. -/
def roundHalfEven (x : ℚ) : ℤ :=
  if x - ⌊x⌋ = 1 / 2 then 2 * round (x / 2) else round x

/-- Round to 5 decimal places, `round(5)` of line 156. -/
def round5 (x : ℚ) : ℚ := (roundHalfEven (x * 100000) : ℚ) / 100000

/-- Rounding of a single cell: numeric cells are rounded, others kept. -/
def cellRound5 : Cell → Cell
  | .num q => .num (round5 q)
  | cell => cell

/-- Line 156, `food_data = food_data.round(5)`: round the whole table. -/
def roundStage (t : Table) : Table := t.map (fun p => (p.1, p.2.map cellRound5))

/-- Sort keys of the per-label report (lines 159-161): the
`Health Score` column of the rounded table, by which `sort_values`
orders the printed rows. -/
def reportSortKeys (t : Table) : List ℚ := qCells (getColD (roundStage t) "Health Score")

/-- A one-row table with the raw columns the pipeline reads. -/
def sampleTable : Table :=
  [("item", [.str "burger"]), ("calories", [.num 500]),
   ("total_fat", [.num 20]), ("sat_fat", [.num 5]), ("sodium", [.num 1000]),
   ("fiber", [.num 3]), ("sugar", [.num 8]), ("protein", [.num 25]),
   ("calcium", [.num 200])]

/-- A row whose densities match every recommended density. -/
def perfectRow : Row :=
  { item := "", calories := 1000, raw := fun _ => 0,
    dens := recommended_density_per_1000cal, health_score := 0 }

/-- The spec example row: sodium density 2000, fat density 40. -/
def exampleModerateRow : Row :=
  { item := "example", calories := 1000, raw := fun _ => 0,
    dens := fun n =>
      match n with
      | .sodium => 2000
      | .total_fat => 40
      | _ => 0,
    health_score := 0 }

/-- First of a pair of rows agreeing exactly on sodium and total-fat
density. -/
def rowA : Row :=
  { item := "fries", calories := 500, raw := fun _ => 1,
    dens := fun n =>
      match n with
      | .sodium => 2000
      | .total_fat => 40
      | .sugar => 100
      | _ => 3,
    health_score := 1 }

/-- Second of the pair: same sodium and total-fat density as `rowA`,
every other column different. -/
def rowB : Row :=
  { item := "burger", calories := 700, raw := fun _ => 2,
    dens := fun n =>
      match n with
      | .sodium => 2000
      | .total_fat => 40
      | .sugar => 7
      | _ => 9,
    health_score := 2 }

/-- Restatement of the foldl as a map-sum, used by the score lemmas. -/
theorem compute_health_score_eq_sum (row : Row) :
    compute_health_score row =
      (nutrients.map
        (fun n => healthTerm (row.dens n) (recommended_density_per_1000cal n))).sum := by
  simp [compute_health_score, nutrients, healthTerm, List.foldl]
  ring

theorem healthTerm_pos (a r : ℚ) : 0 < healthTerm a r := by
  have h : (0 : ℚ) < |a - r| + 1 := by positivity
  exact div_pos one_pos h

theorem healthTerm_le_one (a r : ℚ) : healthTerm a r ≤ 1 := by
  have h : (0 : ℚ) < |a - r| + 1 := by positivity
  rw [healthTerm, div_le_one h]
  have := abs_nonneg (a - r)
  linarith

theorem healthTerm_eq_one_iff (a r : ℚ) : healthTerm a r = 1 ↔ a = r := by
  have h : (0 : ℚ) < |a - r| + 1 := by positivity
  rw [healthTerm, div_eq_one_iff_eq (ne_of_gt h)]
  constructor
  · intro h1
    have habs : |a - r| = 0 := by linarith
    have := abs_eq_zero.mp habs
    linarith
  · intro h1
    subst h1
    simp

theorem healthTerm_strict_anti {a b r : ℚ} (h : |b - r| < |a - r|) :
    healthTerm a r < healthTerm b r := by
  have hb : (0 : ℚ) < |b - r| + 1 := by positivity
  exact div_lt_div_of_pos_left one_pos hb (by linarith)

theorem mem_nutrients (n : Nutrient) : n ∈ nutrients := by
  cases n <;> simp [nutrients]

theorem score_strict_anti (row : Row) (n : Nutrient) (a : ℚ)
    (h : |row.dens n - recommended_density_per_1000cal n| <
         |a - recommended_density_per_1000cal n|) :
    compute_health_score (setDens row n a) < compute_health_score row := by
  rw [compute_health_score_eq_sum, compute_health_score_eq_sum]
  apply List.sum_lt_sum
  · intro m _
    by_cases hmn : m = n
    · subst hmn
      simp only [setDens, if_pos rfl]
      exact (healthTerm_strict_anti h).le
    · simp [setDens, hmn]
  · refine ⟨n, mem_nutrients n, ?_⟩
    simp only [setDens, if_pos rfl]
    exact healthTerm_strict_anti h

/-- Scores are nonnegative: every summand is positive. -/
theorem compute_health_score_nonneg (row : Row) : 0 ≤ compute_health_score row := by
  rw [compute_health_score_eq_sum]
  apply List.sum_nonneg
  intro x hx
  obtain ⟨n, _, rfl⟩ := List.mem_map.mp hx
  exact (healthTerm_pos _ _).le

/-- A row matching every recommended density scores exactly 7. -/
theorem compute_health_score_perfect (row : Row)
    (h : ∀ n, row.dens n = recommended_density_per_1000cal n) :
    compute_health_score row = 7 := by
  rw [compute_health_score_eq_sum]
  simp [nutrients, h, healthTerm]
  norm_num

/-- Case analysis of `classify_health`: each label is equivalent to its
threshold condition. -/
theorem classify_health_iff (row : Row) :
    (classify_health row = .Healthy ↔
      (row.dens .sodium ≤ recommended_density_per_1000cal .sodium ∧
       row.dens .total_fat ≤ recommended_density_per_1000cal .total_fat)) ∧
    (classify_health row = .Moderate ↔
      ((recommended_density_per_1000cal .sodium < row.dens .sodium ∧
        row.dens .total_fat ≤ recommended_density_per_1000cal .total_fat) ∨
       (recommended_density_per_1000cal .total_fat < row.dens .total_fat ∧
        row.dens .sodium ≤ recommended_density_per_1000cal .sodium))) ∧
    (classify_health row = .Unhealthy ↔
      (recommended_density_per_1000cal .sodium < row.dens .sodium ∧
       recommended_density_per_1000cal .total_fat < row.dens .total_fat)) := by
  rcases le_or_lt (row.dens .sodium) (recommended_density_per_1000cal .sodium) with hs | hs <;>
    rcases le_or_lt (row.dens .total_fat) (recommended_density_per_1000cal .total_fat)
      with hf | hf
  · refine ⟨?_, ?_, ?_⟩ <;> simp [classify_health, hs, hf, hs.not_lt, hf.not_lt]
  · refine ⟨?_, ?_, ?_⟩ <;> simp [classify_health, hs, hf, hf.not_le, hs.not_lt]
  · refine ⟨?_, ?_, ?_⟩ <;> simp [classify_health, hs, hf, hs.not_le, hf.not_lt]
  · refine ⟨?_, ?_, ?_⟩ <;> simp [classify_health, hs, hf, hs.not_le, hf.not_le]

theorem foldl_min_le_init (xs : List ℚ) (a : ℚ) : xs.foldl min a ≤ a := by
  induction xs generalizing a with
  | nil => exact le_refl a
  | cons y ys ih => exact le_trans (ih (min a y)) (min_le_left a y)

theorem foldl_min_le_mem {xs : List ℚ} {s : ℚ} (a : ℚ) (h : s ∈ xs) :
    xs.foldl min a ≤ s := by
  induction xs generalizing a with
  | nil => cases h
  | cons y ys ih =>
    rcases List.mem_cons.mp h with rfl | h
    · exact le_trans (foldl_min_le_init ys (min a s)) (min_le_right a s)
    · exact ih _ h

theorem minScore_le_of_mem {scores : List ℚ} {s : ℚ} (h : s ∈ scores) :
    minScore scores ≤ s := by
  cases scores with
  | nil => cases h
  | cons x xs =>
    rcases List.mem_cons.mp h with rfl | h
    · exact foldl_min_le_init xs s
    · exact foldl_min_le_mem x h

theorem init_le_foldl_max (xs : List ℚ) (a : ℚ) : a ≤ xs.foldl max a := by
  induction xs generalizing a with
  | nil => exact le_refl a
  | cons y ys ih => exact le_trans (le_max_left a y) (ih (max a y))

theorem mem_le_foldl_max {xs : List ℚ} {s : ℚ} (a : ℚ) (h : s ∈ xs) :
    s ≤ xs.foldl max a := by
  induction xs generalizing a with
  | nil => cases h
  | cons y ys ih =>
    rcases List.mem_cons.mp h with rfl | h
    · exact le_trans (le_max_right a s) (init_le_foldl_max ys (max a s))
    · exact ih _ h

theorem le_maxScore_of_mem {scores : List ℚ} {s : ℚ} (h : s ∈ scores) :
    s ≤ maxScore scores := by
  cases scores with
  | nil => cases h
  | cons x xs =>
    rcases List.mem_cons.mp h with rfl | h
    · exact init_le_foldl_max xs s
    · exact mem_le_foldl_max x h

theorem foldl_min_const {xs : List ℚ} {x : ℚ} (h : ∀ y ∈ xs, y = x) :
    xs.foldl min x = x := by
  induction xs with
  | nil => rfl
  | cons y ys ih =>
    have hy : y = x := h y (List.mem_cons_self y ys)
    subst hy
    simp only [List.foldl_cons, min_self]
    exact ih (fun z hz => h z (List.mem_cons_of_mem y hz))

theorem foldl_max_const {xs : List ℚ} {x : ℚ} (h : ∀ y ∈ xs, y = x) :
    xs.foldl max x = x := by
  induction xs with
  | nil => rfl
  | cons y ys ih =>
    have hy : y = x := h y (List.mem_cons_self y ys)
    subst hy
    simp only [List.foldl_cons, max_self]
    exact ih (fun z hz => h z (List.mem_cons_of_mem y hz))

/-- C2: every row gets exactly one of the three labels, as a
deterministic function of sodium and total-fat density against the
fixed limits: both at or below yields Healthy, exactly one above yields
Moderate, both above yields Unhealthy; the spec example (sodium density
2000, fat density 40) is labeled Moderate. -/
theorem C2_classifier_trichotomy :
    (∀ row : Row,
      (classify_health row = .Healthy ∨ classify_health row = .Moderate ∨
        classify_health row = .Unhealthy) ∧
      (classify_health row = .Healthy ↔
        (row.dens .sodium ≤ recommended_density_per_1000cal .sodium ∧
         row.dens .total_fat ≤ recommended_density_per_1000cal .total_fat)) ∧
      (classify_health row = .Moderate ↔
        ((recommended_density_per_1000cal .sodium < row.dens .sodium ∧
          row.dens .total_fat ≤ recommended_density_per_1000cal .total_fat) ∨
         (recommended_density_per_1000cal .total_fat < row.dens .total_fat ∧
          row.dens .sodium ≤ recommended_density_per_1000cal .sodium))) ∧
      (classify_health row = .Unhealthy ↔
        (recommended_density_per_1000cal .sodium < row.dens .sodium ∧
         recommended_density_per_1000cal .total_fat < row.dens .total_fat))) ∧
    classify_health exampleModerateRow = .Moderate := by
  refine ⟨fun row => ⟨?_, classify_health_iff row⟩, ?_⟩
  · cases h : classify_health row <;> simp
  · norm_num [classify_health, exampleModerateRow, recommended_density_per_1000cal]

/-- C3: the health score is the sum over the seven nutrients of
`1 / (abs (actual - recommended) + 1)`; it is nonnegative, each term is
at most 1 and equals 1 exactly when the density matches the
recommendation, and a perfect match on all seven nutrients scores 7. -/
theorem C3_health_score_shape :
    (∀ row : Row, compute_health_score row =
      (nutrients.map (fun n =>
        1 / (|row.dens n - recommended_density_per_1000cal n| + 1))).sum) ∧
    (∀ row : Row, 0 ≤ compute_health_score row) ∧
    (∀ (row : Row) (n : Nutrient),
      healthTerm (row.dens n) (recommended_density_per_1000cal n) ≤ 1 ∧
      (healthTerm (row.dens n) (recommended_density_per_1000cal n) = 1 ↔
        row.dens n = recommended_density_per_1000cal n)) ∧
    (∀ row : Row, (∀ n, row.dens n = recommended_density_per_1000cal n) →
      compute_health_score row = 7) :=
  ⟨fun row => compute_health_score_eq_sum row,
   compute_health_score_nonneg,
   fun row n => ⟨healthTerm_le_one _ _, healthTerm_eq_one_iff _ _⟩,
   compute_health_score_perfect⟩

/-- C3 witness: the perfect row attains score 7 and the score is
nonnegative there. -/
theorem C3_health_score_shape_witness :
    compute_health_score perfectRow = 7 ∧ 0 ≤ compute_health_score perfectRow :=
  ⟨C3_health_score_shape.2.2.2 perfectRow (fun _ => rfl),
   C3_health_score_shape.2.1 perfectRow⟩

/-- C4: the normalized score is `(s - min) / (max - min)` over the
dataset; when the range is nonzero every normalized score lies in
`[0, 1]`, the minimum maps to 0 and the maximum to 1. -/
theorem C4_minmax_normalization (scores : List ℚ) (s : ℚ)
    (hmem : s ∈ scores) (hne : maxScore scores ≠ minScore scores) :
    normalizedScore scores s =
      (s - minScore scores) / (maxScore scores - minScore scores) ∧
    0 ≤ normalizedScore scores s ∧ normalizedScore scores s ≤ 1 ∧
    (s = minScore scores → normalizedScore scores s = 0) ∧
    (s = maxScore scores → normalizedScore scores s = 1) := by
  have hmin : minScore scores ≤ s := minScore_le_of_mem hmem
  have hmax : s ≤ maxScore scores := le_maxScore_of_mem hmem
  have hlt : minScore scores < maxScore scores :=
    lt_of_le_of_ne (le_trans hmin hmax) (Ne.symm hne)
  have hpos : 0 < maxScore scores - minScore scores := by linarith
  refine ⟨rfl, ?_, ?_, ?_, ?_⟩
  · exact div_nonneg (by linarith) hpos.le
  · rw [normalizedScore, div_le_one hpos]
    linarith
  · intro h
    rw [normalizedScore, h]
    simp
  · intro h
    rw [normalizedScore, h, div_self hpos.ne']

/-- C4 witness: on the concrete score column `[1, 2, 3]` the middle
value normalizes into `[0, 1]`, the minimum to 0 and the maximum to
1. -/
theorem C4_minmax_normalization_witness :
    0 ≤ normalizedScore [1, 2, 3] 2 ∧ normalizedScore [1, 2, 3] 2 ≤ 1 ∧
    normalizedScore [1, 2, 3] 1 = 0 ∧ normalizedScore [1, 2, 3] 3 = 1 :=
  ⟨(C4_minmax_normalization [1, 2, 3] 2 (by decide) (by decide)).2.1,
   (C4_minmax_normalization [1, 2, 3] 2 (by decide) (by decide)).2.2.1,
   (C4_minmax_normalization [1, 2, 3] 1 (by decide) (by decide)).2.2.2.1 (by decide),
   (C4_minmax_normalization [1, 2, 3] 3 (by decide) (by decide)).2.2.2.2 (by decide)⟩

/-- C6: the label is a pure function of the sodium and total-fat
densities alone: two rows agreeing on those two columns get the same
label whatever their other columns hold. -/
theorem C6_label_noninterference (r1 r2 : Row)
    (hs : r1.dens .sodium = r2.dens .sodium)
    (hf : r1.dens .total_fat = r2.dens .total_fat) :
    classify_health r1 = classify_health r2 := by
  simp only [classify_health, hs, hf]

/-- C6 witness: two rows differing in item, sugar density, raw
nutrients and score but agreeing on sodium and fat density receive the
same label. -/
theorem C6_label_noninterference_witness :
    rowA.item ≠ rowB.item ∧ rowA.dens .sugar ≠ rowB.dens .sugar ∧
    rowA.health_score ≠ rowB.health_score ∧
    classify_health rowA = classify_health rowB :=
  ⟨by decide, by decide, by decide, C6_label_noninterference rowA rowB rfl rfl⟩

/-- C7: each health-score term is strictly decreasing in the absolute
deviation from the recommended density — growing the deviation of one
nutrient strictly lowers the whole score — and the term falls below any
positive bound once the deviation is large enough. -/
theorem C7_term_strict_antitone :
    (∀ a b r : ℚ, |b - r| < |a - r| → healthTerm a r < healthTerm b r) ∧
    (∀ (row : Row) (n : Nutrient) (a : ℚ),
      |row.dens n - recommended_density_per_1000cal n| <
        |a - recommended_density_per_1000cal n| →
      compute_health_score (setDens row n a) < compute_health_score row) ∧
    (∀ ε : ℚ, 0 < ε → ∀ r a : ℚ, 1 / ε ≤ |a - r| → healthTerm a r < ε) := by
  refine ⟨fun a b r h => healthTerm_strict_anti h, score_strict_anti, ?_⟩
  intro ε hε r a h
  have h2 : ε * (1 / ε) ≤ ε * |a - r| := mul_le_mul_of_nonneg_left h hε.le
  have key : ε * (1 / ε) = 1 := mul_one_div_cancel hε.ne'
  have hpos : (0 : ℚ) < |a - r| + 1 := by positivity
  rw [healthTerm, div_lt_iff hpos]
  nlinarith

/-- C7 witness: moving the fiber density of the perfect row one unit
off the recommendation strictly lowers its term and the total score,
and a sodium density of 2000 pushes the sodium term below 1/10. -/
theorem C7_term_strict_antitone_witness :
    healthTerm 6.95 (recommended_density_per_1000cal .fiber) <
      healthTerm (recommended_density_per_1000cal .fiber)
        (recommended_density_per_1000cal .fiber) ∧
    compute_health_score (setDens perfectRow .fiber 6.95) <
      compute_health_score perfectRow ∧
    healthTerm 2000 (recommended_density_per_1000cal .sodium) < 1 / 10 :=
  ⟨C7_term_strict_antitone.1 6.95 (recommended_density_per_1000cal .fiber)
      (recommended_density_per_1000cal .fiber)
      (by norm_num [recommended_density_per_1000cal]),
   C7_term_strict_antitone.2.1 perfectRow .fiber 6.95
      (by norm_num [perfectRow, recommended_density_per_1000cal]),
   C7_term_strict_antitone.2.2 (1 / 10) (by norm_num)
      (recommended_density_per_1000cal .sodium) 2000
      (by rw [recommended_density_per_1000cal, abs_of_nonneg (by norm_num)]
          norm_num)⟩

/-- C8: when every health score is equal the score range is zero and
the normalization of line 74 divides by zero, so it yields no defined
value; in general the normalized value is defined exactly when the
range is nonzero, making the guard necessary. -/
theorem C8_degenerate_range_divides_by_zero :
    (∀ scores : List ℚ, scores ≠ [] → (∀ a ∈ scores, ∀ b ∈ scores, a = b) →
      maxScore scores - minScore scores = 0 ∧
      ∀ s, normalizedScoreF scores s = none) ∧
    (∀ (scores : List ℚ) (s : ℚ),
      (normalizedScoreF scores s).isSome ↔
        maxScore scores - minScore scores ≠ 0) := by
  constructor
  · intro scores hne hall
    have hzero : maxScore scores - minScore scores = 0 := by
      cases scores with
      | nil => exact absurd rfl hne
      | cons x xs =>
        have hx : ∀ y ∈ xs, y = x := by
          intro y hy
          exact hall y (List.mem_cons_of_mem x hy) x (List.mem_cons_self x xs)
        rw [maxScore, minScore, foldl_max_const hx, foldl_min_const hx, sub_self]
    refine ⟨hzero, fun s => ?_⟩
    rw [normalizedScoreF, if_pos hzero]
  · intro scores s
    rw [normalizedScoreF]
    by_cases h : maxScore scores - minScore scores = 0
    · simp [h]
    · simp [h]

/-- C8 witness: on the constant score column `[2, 2]` the range is zero
and the normalized value of 2 is undefined. -/
theorem C8_degenerate_range_divides_by_zero_witness :
    maxScore [2, 2] - minScore [2, 2] = 0 ∧ normalizedScoreF [2, 2] 2 = none :=
  ⟨(C8_degenerate_range_divides_by_zero.1 [2, 2] (by decide) (by decide)).1,
   (C8_degenerate_range_divides_by_zero.1 [2, 2] (by decide) (by decide)).2 2⟩

theorem getCol_setCol_self (t : Table) (c : String) (v : Col) :
    getCol (setCol t c v) c = some v := by
  induction t with
  | nil => simp [setCol, getCol]
  | cons p t ih =>
    by_cases h : p.1 = c
    · simp [setCol, h, getCol]
    · simp [setCol, h, getCol, ih]

theorem getCol_setCol_ne (t : Table) {c c' : String} (v : Col) (h : c' ≠ c) :
    getCol (setCol t c v) c' = getCol t c' := by
  induction t with
  | nil => simp [setCol, getCol, Ne.symm h]
  | cons p t ih =>
    by_cases hp : p.1 = c
    · simp [setCol, getCol, hp, Ne.symm h]
    · simp [setCol, getCol, hp, ih]

theorem getCol_densFold_ne (ns : List Nutrient) (t : Table) {c : String}
    (h : ∀ n ∈ ns, c ≠ densName n) :
    getCol (ns.foldl (fun s n => setCol s (densName n) (densCol s n)) t) c =
      getCol t c := by
  induction ns generalizing t with
  | nil => rfl
  | cons m ms ih =>
    rw [List.foldl_cons, ih _ (fun n hn => h n (List.mem_cons_of_mem m hn)),
      getCol_setCol_ne t _ (h m (List.mem_cons_self m ms))]

theorem getCol_densStage_ne (t : Table) {c : String} (h : c ∉ densNames) :
    getCol (densStage t) c = getCol t c := by
  apply getCol_densFold_ne
  intro n hn hc
  exact h (hc ▸ List.mem_map_of_mem densName hn)

theorem densCol_congr {s t : Table} (n : Nutrient)
    (hraw : getCol s (rawName n) = getCol t (rawName n))
    (hcal : getCol s "calories" = getCol t "calories") :
    densCol s n = densCol t n := by
  simp only [densCol, getColD, hraw, hcal]

theorem rawName_ne_densName (m n : Nutrient) : rawName m ≠ densName n := by
  revert m n
  decide

theorem calories_ne_densName (n : Nutrient) : "calories" ≠ densName n := by
  revert n
  decide

theorem getCol_densFold_written (ns : List Nutrient) (t : Table)
    (hnodup : (ns.map densName).Nodup) (n : Nutrient) (hn : n ∈ ns) :
    getCol (ns.foldl (fun s m => setCol s (densName m) (densCol s m)) t)
        (densName n) = some (densCol t n) := by
  induction ns generalizing t with
  | nil => cases hn
  | cons m ms ih =>
    simp only [List.map_cons, List.nodup_cons] at hnodup
    rw [List.foldl_cons]
    rcases List.mem_cons.mp hn with rfl | hn'
    · have hnotin : ∀ k ∈ ms, densName n ≠ densName k := by
        intro k hk heq
        exact hnodup.1 (heq ▸ List.mem_map_of_mem densName hk)
      rw [getCol_densFold_ne ms _ hnotin, getCol_setCol_self]
    · rw [ih (setCol t (densName m) (densCol t m)) hnodup.2 hn']
      congr 1
      apply densCol_congr
      · exact getCol_setCol_ne t _ (rawName_ne_densName n m)
      · exact getCol_setCol_ne t _ (calories_ne_densName m)

theorem getCol_densStage_written (t : Table) (n : Nutrient) :
    getCol (densStage t) (densName n) = some (densCol t n) :=
  getCol_densFold_written nutrients t (by decide) n (mem_nutrients n)

theorem densName_ne_later (n : Nutrient) :
    densName n ≠ "health_score" ∧ densName n ≠ "Health Score" ∧
    densName n ≠ "health_label" ∧ densName n ≠ "kmeans_cluster" ∧
    densName n ≠ "dbscan_cluster" ∧ densName n ≠ "pca1" ∧
    densName n ≠ "pca2" := by
  revert n
  decide

theorem zipWith_densEntry_getD (raw cal : Col) (i : ℕ) (a c : ℚ)
    (ha : raw.getD i .null = .num a) (hc : cal.getD i .null = .num c) :
    (List.zipWith densEntry raw cal).getD i .null = .num (a / c * 1000) := by
  induction raw generalizing cal i with
  | nil => simp [List.getD] at ha
  | cons x xs ih =>
    cases cal with
    | nil => simp [List.getD] at hc
    | cons y ys =>
      cases i with
      | zero =>
        simp only [List.getD_cons_zero] at ha hc
        simp only [List.zipWith_cons_cons, List.getD_cons_zero, ha, hc]
        rfl
      | succ j =>
        simp only [List.getD_cons_succ] at ha hc
        simp only [List.zipWith_cons_cons, List.getD_cons_succ]
        exact ih ys j ha hc

/-- C5: in the pipeline output, each `<nutrient>_per_1000cal` column is
exactly the raw nutrient column divided cell-wise by the calories
column and scaled by 1000, untouched by every later stage. -/
theorem C5_density_formula (kcol dcol pc1 pc2 : Col) (t : Table) (n : Nutrient) :
    getCol (pipelineAfterDrop kcol dcol pc1 pc2 t) (densName n) =
      some (densCol t n) ∧
    (∀ (i : ℕ) (a c : ℚ),
      (getColD t (rawName n)).getD i .null = .num a →
      (getColD t "calories").getD i .null = .num c →
      (densCol t n).getD i .null = .num (a / c * 1000)) := by
  have h := densName_ne_later n
  constructor
  · simp only [pipelineAfterDrop, pcaStage, dbscanStage, kmeansStage, labelStage,
      normStage, scoreStage]
    rw [getCol_setCol_ne _ _ h.2.2.2.2.2.2, getCol_setCol_ne _ _ h.2.2.2.2.2.1,
      getCol_setCol_ne _ _ h.2.2.2.2.1, getCol_setCol_ne _ _ h.2.2.2.1,
      getCol_setCol_ne _ _ h.2.2.1, getCol_setCol_ne _ _ h.2.1,
      getCol_setCol_ne _ _ h.1, getCol_densStage_written]
  · intro i a c ha hc
    exact zipWith_densEntry_getD _ _ i a c ha hc

/-- C5 witness: on a one-row table the sodium density column of the
full pipeline output holds sodium / calories * 1000. -/
theorem C5_density_formula_witness :
    getCol (pipelineAfterDrop [] [] [] [] sampleTable) (densName .sodium) =
      some (densCol sampleTable .sodium) ∧
    (densCol sampleTable .sodium).getD 0 .null = .num (1000 / 500 * 1000) :=
  ⟨(C5_density_formula [] [] [] [] sampleTable .sodium).1,
   (C5_density_formula [] [] [] [] sampleTable .sodium).2 0 1000 500
     (by decide) (by decide)⟩

/-- C9: every stage after the early column drop only adds columns — any
column outside the written set is returned unchanged by the whole
pipeline, no two stages write the same column, and no stage writes over
a raw column the program reads. -/
theorem C9_stages_only_add_columns :
    (∀ (kcol dcol pc1 pc2 : Col) (t : Table) (c : String), c ∉ writtenNames →
      getCol (pipelineAfterDrop kcol dcol pc1 pc2 t) c = getCol t c) ∧
    writtenNames.Nodup ∧
    (∀ c ∈ rawNames, c ∉ writtenNames) := by
  refine ⟨?_, by decide, by decide⟩
  intro kcol dcol pc1 pc2 t c hc
  rw [writtenNames, List.mem_append] at hc
  push_neg at hc
  obtain ⟨hdens, hlater⟩ := hc
  simp only [laterNames, List.mem_cons, List.not_mem_nil, or_false, not_or] at hlater
  obtain ⟨h1, h2, h3, h4, h5, h6, h7⟩ := hlater
  simp only [pipelineAfterDrop, pcaStage, dbscanStage, kmeansStage, labelStage,
    normStage, scoreStage]
  rw [getCol_setCol_ne _ _ h7, getCol_setCol_ne _ _ h6, getCol_setCol_ne _ _ h5,
    getCol_setCol_ne _ _ h4, getCol_setCol_ne _ _ h3, getCol_setCol_ne _ _ h2,
    getCol_setCol_ne _ _ h1, getCol_densStage_ne t hdens]

/-- C9 witness: the raw `calories` column of the one-row sample table
survives the whole pipeline unchanged. -/
theorem C9_stages_only_add_columns_witness :
    getCol (pipelineAfterDrop [] [] [] [] sampleTable) "calories" =
      getCol sampleTable "calories" :=
  C9_stages_only_add_columns.1 [] [] [] [] sampleTable "calories" (by decide)

theorem getCol_roundStage (t : Table) (c : String) :
    getCol (roundStage t) c = (getCol t c).map (List.map cellRound5) := by
  induction t with
  | nil => rfl
  | cons p t ih =>
    rw [roundStage] at ih ⊢
    by_cases h : p.1 = c
    · simp [getCol, h]
    · simp only [List.map_cons, getCol, h, if_false, ite_false]
      simpa [h] using ih

theorem qCells_map_cellRound5 (col : Col) :
    qCells (col.map cellRound5) = (qCells col).map round5 := by
  induction col with
  | nil => rfl
  | cons cell col ih =>
    cases cell <;> simp [qCells, cellRound5, Cell.toQ, List.filterMap_cons] at ih ⊢ <;>
      exact ih

/-- C10: the report's sort keys are the exact normalized scores passed
through the 5-decimal rounding of line 156, and two distinct scores
less than `10 ^ (-5)` apart can round to the same key, leaving their
printed order undetermined by the exact scores. -/
theorem C10_sort_key_is_rounded_score :
    (∀ t : Table, reportSortKeys t = (qCells (getColD t "Health Score")).map round5) ∧
    (∃ a b : ℚ, a ≠ b ∧ |a - b| < 1 / 100000 ∧ round5 a = round5 b) := by
  constructor
  · intro t
    unfold reportSortKeys getColD
    rw [getCol_roundStage]
    cases h : getCol t "Health Score" with
    | none => rfl
    | some col => simp [qCells_map_cellRound5]
  · refine ⟨1 / 1000000, 2 / 1000000, by norm_num, ?_, ?_⟩
    · have hv : (1 : ℚ) / 1000000 - 2 / 1000000 = -(1 / 1000000) := by norm_num
      rw [hv, abs_neg, abs_of_nonneg (by norm_num)]
      norm_num
    · norm_num [round5, roundHalfEven, round_eq]

theorem nonNull_example : nonNull [some 10, none, some 30] = [10, 30] := rfl

theorem floor_quarter : ⌊(1 / 4 : ℚ)⌋ = 0 := by
  rw [Int.floor_eq_iff]
  constructor <;> norm_num

theorem floor_half : ⌊(1 / 2 : ℚ)⌋ = 0 := by
  rw [Int.floor_eq_iff]
  constructor <;> norm_num

theorem floor_three_quarters : ⌊(3 / 4 : ℚ)⌋ = 0 := by
  rw [Int.floor_eq_iff]
  constructor <;> norm_num

theorem quantile_pair_q25 : quantile [10, 30] (1 / 4) = 15 := by
  have h1 : (1 / 4 : ℚ) * (((10 :: 30 :: ([] : List ℚ)).length : ℚ) - 1) = 1 / 4 := by
    norm_num
  simp only [quantile, h1, floor_quarter]
  norm_num [List.getD_cons_zero, List.getD_cons_succ]

theorem quantile_pair_q50 : quantile [10, 30] (1 / 2) = 20 := by
  have h1 : (1 / 2 : ℚ) * (((10 :: 30 :: ([] : List ℚ)).length : ℚ) - 1) = 1 / 2 := by
    norm_num
  simp only [quantile, h1, floor_half]
  norm_num [List.getD_cons_zero, List.getD_cons_succ]

theorem quantile_pair_q75 : quantile [10, 30] (3 / 4) = 25 := by
  have h1 : (3 / 4 : ℚ) * (((10 :: 30 :: ([] : List ℚ)).length : ℚ) - 1) = 3 / 4 := by
    norm_num
  simp only [quantile, h1, floor_three_quarters]
  norm_num [List.getD_cons_zero, List.getD_cons_succ]

theorem insertionSort_example :
    List.insertionSort (· ≤ ·) ([10, 30] : List ℚ) = [10, 30] := by
  norm_num [List.insertionSort, List.orderedInsert]

theorem sampleVar_example : sampleVar [10, 30] = 200 := by
  norm_num [sampleVar]

theorem describeStatsQ_example : (describeStatsQ [10, 30]).sum = 122 := by
  simp only [describeStatsQ, insertionSort_example, quantile_pair_q25,
    quantile_pair_q50, quantile_pair_q75]
  norm_num [List.getLastD]

/-- C1: the claim (and the comment on line 32) says the imputation value
is the column's own mean of the non-null entries — 20 for the column
[10, null, 30] — but line 36 computes `describe().mean()`, the mean of
the eight summary statistics, which on that column is strictly below 20
(namely (122 + sqrt 200) / 8 ≈ 17.018); `fillna` itself does replace
every null, so only the imputed value diverges. -/
theorem C1_mean_imputation :
    colMean (nonNull [some 10, none, some 30]) = 20 ∧
    (∀ m : ℝ, isDescribeMean (nonNull [some 10, none, some 30]) m → m < 20) ∧
    (∀ v : ℚ, fillna v [some 10, none, some 30] = [10, v, 30]) := by
  refine ⟨by norm_num [colMean, nonNull_example], ?_, fun v => rfl⟩
  intro m hm
  obtain ⟨std, ⟨h0, h2⟩, hm8⟩ := hm
  rw [nonNull_example] at h2 hm8
  rw [sampleVar_example] at h2
  rw [describeStatsQ_example] at hm8
  have h2' : std ^ 2 = (200 : ℝ) := by
    rw [h2]
    norm_num
  have hm8' : m * 8 = 122 + std := by
    rw [hm8]
    norm_num
  have hstd : std < 38 := by nlinarith [sq_nonneg (std - 38)]
  linarith

/-- C1 witness: the value the code computes on the failing column,
(122 + sqrt 200) / 8, is strictly below the claimed 20. -/
theorem C1_mean_imputation_witness : (122 + Real.sqrt 200) / 8 < 20 :=
  C1_mean_imputation.2.1 ((122 + Real.sqrt 200) / 8)
    ⟨Real.sqrt 200,
     ⟨Real.sqrt_nonneg 200, by
        rw [Real.sq_sqrt (by norm_num : (0 : ℝ) ≤ 200), nonNull_example,
          sampleVar_example]
        norm_num⟩,
     by
        rw [nonNull_example, describeStatsQ_example]
        push_cast
        ring⟩

end HealthyFood
